import Mathlib

/-!
Shallow embedding of the dual-store document coordinator of the
PramaIA VectorstoreService, together with its consistency/repair engine,
the content-hash deduplication ledger, the filesystem reconciliation job
and the daily scheduler, and proofs of the specification's claims.

Conventions of the embedding:
* the SQLite metadata store and the ChromaDB collection are modelled as
  lists of documents in insertion (rowid) order;
* fallible collaborator calls (the SQLite write, the availability of the
  Chroma collection, a Chroma `add`/`delete`/`get` raising) are modelled by
  explicit environment records: a raised exception that the code catches
  becomes a branch of the embedded function;
* document metadata is modelled by the typed fields the coordinator reads
  (`is_binary`, `content_type`, `file_type`), all other key-value pairs
  being carried opaquely; timestamps set by the stores are not modelled,
  no claim mentions them.
-/

namespace VectorstoreService

/-- Python `str.lower()` for the ASCII strings these managers handle. -/
def py_lower (s : String) : String := ⟨s.data.map Char.toLower⟩

/-- Python `s.startswith(t)`. -/
def py_starts_with (s t : String) : Bool := t.data.isPrefixOf s.data

/-- Python `str.strip()` (leading and trailing whitespace removed). -/
def py_strip (s : String) : String :=
  ⟨((s.data.dropWhile Char.isWhitespace).reverse.dropWhile Char.isWhitespace).reverse⟩

/-- Python `len(s)`. -/
def py_len (s : String) : Nat := s.data.length

/-- Document metadata, restricted to the fields `_should_vectorize_content`
reads, with the types the code expects there: `is_binary` is the truthiness
of `metadata.get('is_binary', False)`, `content_type` and `file_type` default
to `""` as in `metadata.get(..., '')`.  Remaining pairs are carried in
`rest`. -/
structure Metadata where
  is_binary : Bool := false
  content_type : String := ""
  file_type : String := ""
  rest : List (String × String) := []
  deriving DecidableEq

/-- Embedding of `DocumentManager._should_vectorize_content`
(`src/app/utils/document_manager.py`, lines 47-83): a document is
vectorizable unless it is marked binary, its `content_type` or `file_type`
declares a binary format, its content carries the `BINARY_FILE:` marker, or
its content is empty or shorter than 10 characters once stripped. -/
def should_vectorize_content (content : String) (metadata : Metadata) : Bool :=
  if metadata.is_binary then false
  else if ["binary", "image", "audio", "video"].contains (py_lower metadata.content_type) then
    false
  else if ["image/", "audio/", "video/", "application/zip", "application/octet-stream"].any
      (fun t => py_starts_with (py_lower metadata.file_type) t) then
    false
  else if py_starts_with content "BINARY_FILE:" then false
  else if content = "" || py_len (py_strip content) < 10 then false
  else true

/-- A stored document: its id, its text content and its metadata. -/
structure Doc where
  id : String
  content : String
  meta : Metadata
  deriving DecidableEq

/-- The ids recorded in a store. -/
def doc_ids (l : List Doc) : List String := l.map Doc.id

/-- Joint state of the two stores: the relational (SQLite) store and the
vector (ChromaDB) store, each a list of documents in insertion order. -/
structure StoreState where
  sqlite : List Doc
  chroma : List Doc
  deriving DecidableEq

/-- Embedding of `SQLiteMetadataManager.add_document`
(`src/app/utils/sqlite_metadata_manager.py`, lines 374-458) restricted to its
net effect on the stored record: the row is updated in place when the id
already exists, inserted at the end otherwise. -/
def sqlite_upsert (db : List Doc) (d : Doc) : List Doc :=
  if db.any (fun x => x.id == d.id) then
    db.map (fun x => if x.id == d.id then d else x)
  else
    db ++ [d]

/-- Environment of one `add_document` call: whether the SQLite write
reports success (`False` also covers an exception inside the SQLite
manager, which returns `False`), whether `vector_db.get_collection()`
returns a collection, and whether `collection.add` raises. -/
structure AddEnv where
  sqlite_ok : Bool
  collection_some : Bool
  chroma_add_raises : Bool
  deriving DecidableEq

/-- Embedding of `DocumentManager.add_document`
(`src/app/utils/document_manager.py`, lines 85-137).  The SQLite write comes
first and decides the returned flag; the vector write happens only for
vectorizable content, and an unavailable collection or a raising
`collection.add` is swallowed. -/
def add_document (env : AddEnv) (s : StoreState) (doc_id content : String)
    (metadata : Metadata) : Bool × StoreState :=
  if env.sqlite_ok then
    let s1 : StoreState := { s with sqlite := sqlite_upsert s.sqlite ⟨doc_id, content, metadata⟩ }
    if should_vectorize_content content metadata then
      if env.collection_some && !env.chroma_add_raises then
        (true, { s1 with chroma := s1.chroma ++ [⟨doc_id, content, metadata⟩] })
      else
        (true, s1)
    else
      (true, s1)
  else
    (false, s)

/-- Environment of one `delete_document` call: whether the SQLite delete
raises, whether `get_collection()` returns a collection, and whether
`collection.delete` raises. -/
structure DelEnv where
  sqlite_del_raises : Bool
  collection_some : Bool
  chroma_del_raises : Bool
  deriving DecidableEq

/-- Embedding of `DocumentManager.delete_document`
(`src/app/utils/document_manager.py`, lines 238-280).  The SQLite delete
succeeds when it does not raise and actually removed a row
(`rows_affected > 0`); the Chroma delete counts as a success whenever the
collection is available and the call does not raise.  The call succeeds
when at least one of the two deletions succeeded. -/
def delete_document (env : DelEnv) (s : StoreState) (doc_id : String) : Bool × StoreState :=
  let sqlite_deleted := !env.sqlite_del_raises && s.sqlite.any (fun d => d.id == doc_id)
  let sqlite1 := if env.sqlite_del_raises then s.sqlite else s.sqlite.filter (fun d => d.id != doc_id)
  let chroma_deleted := env.collection_some && !env.chroma_del_raises
  let chroma1 := if chroma_deleted then s.chroma.filter (fun d => d.id != doc_id) else s.chroma
  let success_count := (if sqlite_deleted then 1 else 0) + (if chroma_deleted then 1 else 0)
  (decide (0 < success_count), ⟨sqlite1, chroma1⟩)

/-- C1: when `VectorizationEligibility(content, metadata)` is false
(metadata marks it binary, binary media type, empty or too-short content,
or the binary-marker content), `add_document` leaves the vector store
untouched, so an id absent from the vector store is still absent after the
add. -/
theorem add_document_ineligible_not_in_vector (env : AddEnv) (s : StoreState)
    (doc_id content : String) (metadata : Metadata)
    (hel : should_vectorize_content content metadata = false) :
    (add_document env s doc_id content metadata).2.chroma = s.chroma ∧
    (doc_id ∉ doc_ids s.chroma →
      doc_id ∉ doc_ids (add_document env s doc_id content metadata).2.chroma) := by
  unfold add_document
  cases h : env.sqlite_ok <;> simp [hel]

/-- Witness for C1: a concrete ineligible document (empty content) added to
empty stores never reaches the vector store. -/
theorem add_document_ineligible_not_in_vector_w :
    (add_document ⟨true, true, false⟩ ⟨[], []⟩ "doc1" "" ⟨false, "", "", []⟩).2.chroma
      = ([] : List Doc) :=
  (add_document_ineligible_not_in_vector ⟨true, true, false⟩ ⟨[], []⟩ "doc1" ""
    ⟨false, "", "", []⟩ (by decide)).1

/-- C2: `add_document` returns exactly the outcome of the relational write,
and the relational store's final content does not depend on the
vector-store part of the environment (collection availability, a raising
`collection.add`): a vector-store failure neither fails the add nor reverts
the relational write, and a failed relational write fails the add. -/
theorem add_document_relational_authoritative (e1 e2 : AddEnv) (s : StoreState)
    (doc_id content : String) (metadata : Metadata)
    (h : e1.sqlite_ok = e2.sqlite_ok) :
    (add_document e1 s doc_id content metadata).1 = e1.sqlite_ok ∧
    (add_document e1 s doc_id content metadata).2.sqlite =
      (add_document e2 s doc_id content metadata).2.sqlite ∧
    (e1.sqlite_ok = false → (add_document e1 s doc_id content metadata).2 = s) := by
  unfold add_document
  rw [← h]
  cases h1 : e1.sqlite_ok <;>
    cases h2 : should_vectorize_content content metadata <;>
      cases h3 : e1.collection_some && !e1.chroma_add_raises <;>
        cases h4 : e2.collection_some && !e2.chroma_add_raises <;>
          simp [h1, h2, h3, h4]

/-- Witness for C2: with a healthy relational write but no usable vector
collection, the add still succeeds and the relational store holds exactly
what it would hold with a healthy vector store. -/
theorem add_document_relational_authoritative_w :
    (add_document ⟨true, false, false⟩ ⟨[], []⟩ "doc1" "some long content here"
      ⟨false, "", "", []⟩).1 = true ∧
    (add_document ⟨true, false, false⟩ ⟨[], []⟩ "doc1" "some long content here"
        ⟨false, "", "", []⟩).2.sqlite =
      (add_document ⟨true, true, false⟩ ⟨[], []⟩ "doc1" "some long content here"
        ⟨false, "", "", []⟩).2.sqlite := by
  have h := add_document_relational_authoritative ⟨true, false, false⟩ ⟨true, true, false⟩
    ⟨[], []⟩ "doc1" "some long content here" ⟨false, "", "", []⟩ rfl
  exact ⟨h.1, h.2.1⟩

/-- C6: `delete_document` succeeds exactly when at least one of the two
deletions succeeds (the SQLite delete removed a row without raising, or the
collection was available and its delete did not raise); in particular a
failed relational delete with a succeeding vector delete still yields
success. -/
theorem delete_document_any_store_success (env : DelEnv) (s : StoreState) (doc_id : String) :
    (delete_document env s doc_id).1 =
      ((!env.sqlite_del_raises && s.sqlite.any (fun d => d.id == doc_id)) ||
        (env.collection_some && !env.chroma_del_raises)) ∧
    (delete_document ⟨true, true, false⟩ s doc_id).1 = true := by
  constructor
  · unfold delete_document
    cases h1 : !env.sqlite_del_raises && s.sqlite.any (fun d => d.id == doc_id) <;>
      cases h2 : env.collection_some && !env.chroma_del_raises <;>
        simp [h1, h2]
  · unfold delete_document
    simp

/-- Environment of one `repair_sync_issues` call: whether
`vector_db.get_collection()` returns a collection, whether reading the
collection ids (`collection.get()`) raises, and which per-document
`collection.add` / `collection.delete` calls raise. -/
structure RepairEnv where
  collection_some : Bool
  chroma_read_raises : Bool
  add_raises : String → Bool
  del_raises : String → Bool

/-- Accumulator of the two repair loops: the evolving Chroma store, the
number of successful repairs in this loop, and the error strings collected
so far. -/
structure RepairScan where
  chroma : List Doc
  repaired : Nat
  errors : List String
  deriving DecidableEq

/-- The `repair_results` record of `repair_sync_issues`. -/
structure RepairResults where
  missing_in_chromadb : Nat
  missing_in_sqlite : Nat
  repaired_chromadb : Nat
  repaired_sqlite : Nat
  errors : List String
  deriving DecidableEq

/-- One iteration of the first repair loop of `repair_sync_issues`
(`src/app/utils/database_admin_manager.py`): for an id missing in ChromaDB,
look the document up in the SQLite snapshot and, when found and a
collection is available, re-add its content and metadata to ChromaDB; a
raising `collection.add` is recorded in `errors`. -/
def repair_add_step (env : RepairEnv) (sqlite_docs : List Doc) (scan : RepairScan)
    (doc_id : String) : RepairScan :=
  match sqlite_docs.find? (fun d => d.id == doc_id) with
  | some doc =>
    if env.collection_some then
      if env.add_raises doc_id then
        { scan with errors := scan.errors ++ ["Errore riparazione " ++ doc_id ++ " in ChromaDB"] }
      else
        { scan with chroma := scan.chroma ++ [doc], repaired := scan.repaired + 1 }
    else
      scan
  | none => scan

/-- One iteration of the second repair loop of `repair_sync_issues`: an id
missing in SQLite is deleted from ChromaDB when a collection is available;
a raising `collection.delete` is recorded in `errors`. -/
def repair_del_step (env : RepairEnv) (scan : RepairScan) (doc_id : String) : RepairScan :=
  if env.collection_some then
    if env.del_raises doc_id then
      { scan with errors := scan.errors ++ ["Errore rimozione " ++ doc_id ++ " da ChromaDB"] }
    else
      { scan with chroma := scan.chroma.filter (fun d => d.id != doc_id),
                  repaired := scan.repaired + 1 }
  else
    scan

/-- Embedding of `DatabaseAdminManager.repair_sync_issues`
(`src/app/utils/database_admin_manager.py`, lines 831-955): reads both
stores, computes `missing_in_chroma = sqlite_ids - chroma_ids` and
`missing_in_sqlite = chroma_ids - sqlite_ids`, re-adds the former to
ChromaDB and deletes the latter from ChromaDB, each failure recorded and
skipped.  When the collection is unavailable or its read raises, the Chroma
id list is treated as empty, exactly as in the source.  The SQLite store is
only ever read. -/
def repair_sync_issues (env : RepairEnv) (s : StoreState) : StoreState × RepairResults :=
  let sqlite_docs := s.sqlite
  let chroma_docs : List String :=
    if env.collection_some && !env.chroma_read_raises then doc_ids s.chroma else []
  let sqlite_ids := (doc_ids sqlite_docs).dedup
  let chroma_id_set := chroma_docs.dedup
  let missing_in_chroma := sqlite_ids.filter (fun i => !chroma_id_set.contains i)
  let missing_in_sqlite := chroma_id_set.filter (fun i => !sqlite_ids.contains i)
  let scan1 := missing_in_chroma.foldl (repair_add_step env sqlite_docs) ⟨s.chroma, 0, []⟩
  let scan2 := missing_in_sqlite.foldl (repair_del_step env) ⟨scan1.chroma, 0, scan1.errors⟩
  (⟨s.sqlite, scan2.chroma⟩,
   ⟨missing_in_chroma.length, missing_in_sqlite.length, scan1.repaired, scan2.repaired,
    scan2.errors⟩)

/-- Any id still present after a `repair_del_step` was present before: the
delete loop never adds documents to the Chroma store. -/
theorem repair_del_step_ids_subset (env : RepairEnv) (scan : RepairScan) (j x : String)
    (hx : x ∈ doc_ids (repair_del_step env scan j).chroma) : x ∈ doc_ids scan.chroma := by
  unfold repair_del_step at hx
  by_cases h1 : env.collection_some = true
  · by_cases h2 : env.del_raises j = true
    · simpa [h1, h2] using hx
    · simp only [h1, h2, if_true, if_false, Bool.false_eq_true] at hx
      simp only [doc_ids] at hx ⊢
      rcases List.mem_map.mp hx with ⟨d, hd, rfl⟩
      exact List.mem_map.mpr ⟨d, (List.mem_filter.mp hd).1, rfl⟩
  · simpa [h1] using hx

/-- An id scheduled in the delete loop, whose `collection.delete` does not
raise, is absent from the Chroma store after the loop has run. -/
theorem repair_del_fold_removes (env : RepairEnv) (i : String)
    (hcoll : env.collection_some = true) (hdel : env.del_raises i = false) :
    ∀ (l : List String) (scan : RepairScan),
      (i ∈ l ∨ i ∉ doc_ids scan.chroma) →
      i ∉ doc_ids (l.foldl (repair_del_step env) scan).chroma := by
  intro l
  induction l with
  | nil =>
    intro scan h
    rcases h with h | h
    · cases h
    · exact h
  | cons j t ih =>
    intro scan h
    simp only [List.foldl_cons]
    rcases h with h | h
    · rcases List.mem_cons.mp h with rfl | hmem
      · refine ih _ (Or.inr ?_)
        unfold repair_del_step
        simp only [hcoll, hdel, if_true, if_false, Bool.false_eq_true]
        intro hmem2
        rcases List.mem_map.mp hmem2 with ⟨d, hd, hdi⟩
        rcases List.mem_filter.mp hd with ⟨-, hne⟩
        simp only [bne_iff_ne, ne_eq] at hne
        exact hne hdi
      · exact ih _ (Or.inl hmem)
    · refine ih _ (Or.inr ?_)
      intro hmem2
      exact h (repair_del_step_ids_subset env scan j i hmem2)

/-- C3: `repair_sync_issues` never mutates the relational store — the
SQLite document list after repair is the one before, for every environment
(any combination of per-id add/delete failures, unavailable collection or
raising read) — and an id present only in the vector store whose
`collection.delete` does not raise is removed from the vector store
only. -/
theorem repair_never_mutates_relational (env : RepairEnv) (s : StoreState) :
    (repair_sync_issues env s).1.sqlite = s.sqlite ∧
    (∀ i, i ∈ doc_ids s.chroma → i ∉ doc_ids s.sqlite →
      env.collection_some = true → env.chroma_read_raises = false →
      env.del_raises i = false →
      i ∉ doc_ids (repair_sync_issues env s).1.chroma) := by
  constructor
  · rfl
  · intro i hin hout hcoll hread hdel
    unfold repair_sync_issues
    simp only [hcoll, hread, Bool.not_false, Bool.and_self, if_true]
    refine repair_del_fold_removes env i hcoll hdel _ _ (Or.inl ?_)
    refine List.mem_filter.mpr ⟨List.mem_dedup.mpr hin, ?_⟩
    have hnd : i ∉ (doc_ids s.sqlite).dedup := fun hc => hout (List.mem_dedup.mp hc)
    simpa using hnd

/-- Witness for C3: a store pair with `a` only in SQLite and `b` only in
ChromaDB; repair leaves SQLite untouched and removes `b` from ChromaDB. -/
theorem repair_never_mutates_relational_w :
    (repair_sync_issues ⟨true, false, fun _ => false, fun _ => false⟩
        ⟨[⟨"a", "c1", ⟨false, "", "", []⟩⟩], [⟨"b", "c2", ⟨false, "", "", []⟩⟩]⟩).1.sqlite
      = [⟨"a", "c1", ⟨false, "", "", []⟩⟩] ∧
    "b" ∉ doc_ids
      (repair_sync_issues ⟨true, false, fun _ => false, fun _ => false⟩
        ⟨[⟨"a", "c1", ⟨false, "", "", []⟩⟩], [⟨"b", "c2", ⟨false, "", "", []⟩⟩]⟩).1.chroma := by
  have h := repair_never_mutates_relational ⟨true, false, fun _ => false, fun _ => false⟩
    ⟨[⟨"a", "c1", ⟨false, "", "", []⟩⟩], [⟨"b", "c2", ⟨false, "", "", []⟩⟩]⟩
  exact ⟨h.1, h.2 "b" (by decide) (by decide) rfl rfl rfl⟩

/-- C4, the code's behaviour at the failing input: `repair_sync_issues`
re-inserts a document present only in the relational store without
re-running the eligibility check.  Document `doc1` has empty content, so
`should_vectorize_content` rejects it, yet after repair it sits in the
vector store. -/
theorem repair_inserts_ineligible_document :
    should_vectorize_content "" ⟨false, "", "", []⟩ = false ∧
    "doc1" ∈ doc_ids
      (repair_sync_issues ⟨true, false, fun _ => false, fun _ => false⟩
        ⟨[⟨"doc1", "", ⟨false, "", "", []⟩⟩], []⟩).1.chroma := by
  exact ⟨by decide, by decide⟩

/-- A row of the `file_hashes` table
(`src/app/utils/file_hash_manager.py`, `_init_db`): the schema declares
`file_hash TEXT PRIMARY KEY` and adds `file_name`, `document_id`,
`file_path`, `client_id` and `original_path` columns (`upload_time` is set
by the database and never read by these operations, so it is not
modelled).  The ledger is the list of rows in rowid (insertion) order. -/
structure HashRow where
  file_hash : String
  file_name : String
  document_id : String
  file_path : String
  client_id : String
  original_path : String
  deriving DecidableEq

/-- Row predicate of the exact-duplicate query: same hash, client and
original path. -/
def exact_row (file_hash client_id original_path : String) (r : HashRow) : Bool :=
  r.file_hash == file_hash && r.client_id == client_id && r.original_path == original_path

/-- Embedding of `FileHashManager.check_duplicate`
(`src/app/utils/file_hash_manager.py`, lines 65-116).  The database handle
is an `Except`: `error` models `sqlite3.connect`/query raising, which the
method catches, returning `(False, None, False)`.  A `SELECT ... fetchone()`
without `ORDER BY` returns the first matching row in rowid order, i.e.
`List.find?` on the insertion-ordered ledger. -/
def check_duplicate (db : Except String (List HashRow))
    (file_hash client_id original_path : String) : Bool × Option String × Bool :=
  match db with
  | Except.error _ => (false, none, false)
  | Except.ok rows =>
    match rows.find? (exact_row file_hash client_id original_path) with
    | some r => (true, some r.document_id, true)
    | none =>
      match rows.find? (fun r => r.file_hash == file_hash) with
      | some r => (true, some r.document_id, false)
      | none => (false, none, false)

/-- Embedding of `FileHashManager.save_file_hash`
(`src/app/utils/file_hash_manager.py`, lines 118-160).  The method first
checks the `(hash, client_id, original_path)` triple and reports `False`
without inserting when it is present.  Otherwise it runs an `INSERT`; since
the schema declares `file_hash` alone as `PRIMARY KEY`, the insert raises
`IntegrityError` whenever any row already carries that hash, the
`except` swallows it and the method returns `False` with nothing stored.
Only a genuinely fresh hash inserts a row (the `file_path` column is set to
the filename, as in the source's `INSERT`). -/
def save_file_hash (rows : List HashRow)
    (file_hash filename document_id client_id original_path : String) :
    Bool × List HashRow :=
  if rows.any (exact_row file_hash client_id original_path) then
    (false, rows)
  else if rows.any (fun r => r.file_hash == file_hash) then
    (false, rows)
  else
    (true, rows ++ [⟨file_hash, filename, document_id, filename, client_id, original_path⟩])

/-- `find?` skips a block of rows on which the predicate is false. -/
theorem find_skip_block {q : HashRow → Bool} {rows : List HashRow}
    (hq : ∀ r ∈ rows, q r = false) (tail : List HashRow) :
    (rows ++ tail).find? q = tail.find? q := by
  induction rows with
  | nil => rfl
  | cons r t ih =>
    have hr : q r = false := hq r (List.mem_cons_self r t)
    simp only [List.cons_append, List.find?, hr]
    exact ih (fun x hx => hq x (List.mem_cons_of_mem r hx))

/-- C7: `check_duplicate` is the reference three-stage lookup: first row
matching the `(hash, client_id, original_path)` triple as an exact
duplicate, else first row matching the hash as a content duplicate, else
not a duplicate; and after saving a fresh hash `h` under `(c, p)`, querying
`h` with `(c, p)` yields `(true, doc_id, true)`, querying `h` with a
different origin `(c2, p2)` yields `(true, doc_id, false)`, while the
never-seen `h` yielded `(false, none, false)` before the save. -/
theorem check_duplicate_reference_lookup (rows0 rows : List HashRow)
    (h0 c0 p0 h name doc_id c p c2 p2 : String)
    (hfresh : ∀ r ∈ rows, r.file_hash ≠ h)
    (hdiff : (c2, p2) ≠ (c, p)) :
    (∀ r, rows0.find? (exact_row h0 c0 p0) = some r →
      check_duplicate (Except.ok rows0) h0 c0 p0 = (true, some r.document_id, true)) ∧
    (∀ r, rows0.find? (exact_row h0 c0 p0) = none →
      rows0.find? (fun x => x.file_hash == h0) = some r →
      check_duplicate (Except.ok rows0) h0 c0 p0 = (true, some r.document_id, false)) ∧
    (rows0.find? (exact_row h0 c0 p0) = none →
      rows0.find? (fun x => x.file_hash == h0) = none →
      check_duplicate (Except.ok rows0) h0 c0 p0 = (false, none, false)) ∧
    check_duplicate (Except.ok rows) h c p = (false, none, false) ∧
    (save_file_hash rows h name doc_id c p).1 = true ∧
    check_duplicate (Except.ok (save_file_hash rows h name doc_id c p).2) h c p
      = (true, some doc_id, true) ∧
    check_duplicate (Except.ok (save_file_hash rows h name doc_id c p).2) h c2 p2
      = (true, some doc_id, false) := by
  have hex : ∀ c' p', ∀ r ∈ rows, exact_row h c' p' r = false := by
    intro c' p' r hr
    have := hfresh r hr
    simp only [exact_row, Bool.and_eq_false_iff]
    left; left
    simpa using this
  have hhash : ∀ r ∈ rows, (r.file_hash == h) = false := by
    intro r hr
    simpa using hfresh r hr
  have hfind_ex : ∀ c' p', rows.find? (exact_row h c' p') = none :=
    fun c' p' => List.find?_eq_none.mpr (fun x hx => by simp [hex c' p' x hx])
  have hfind_h : rows.find? (fun r => r.file_hash == h) = none :=
    List.find?_eq_none.mpr (fun x hx => by simp [hhash x hx])
  have hsave : save_file_hash rows h name doc_id c p
      = (true, rows ++ [⟨h, name, doc_id, name, c, p⟩]) := by
    unfold save_file_hash
    have h1 : rows.any (exact_row h c p) = false :=
      List.any_eq_false.mpr (fun x hx => by simp [hex c p x hx])
    have h2 : rows.any (fun r => r.file_hash == h) = false :=
      List.any_eq_false.mpr (fun x hx => by simp [hhash x hx])
    simp [h1, h2]
  have hsave1 : (save_file_hash rows h name doc_id c p).1 = true := by rw [hsave]
  have hsave2 : (save_file_hash rows h name doc_id c p).2
      = rows ++ [⟨h, name, doc_id, name, c, p⟩] := by rw [hsave]
  refine ⟨?_, ?_, ?_, ?_, hsave1, ?_, ?_⟩
  · intro r hfind
    simp [check_duplicate, hfind]
  · intro r hnone hfind
    simp [check_duplicate, hnone, hfind]
  · intro hnone1 hnone2
    simp [check_duplicate, hnone1, hnone2]
  · simp [check_duplicate, hfind_ex c p, hfind_h]
  · rw [hsave2]
    simp only [check_duplicate]
    rw [find_skip_block (hex c p)]
    simp [List.find?, exact_row]
  · rw [hsave2]
    simp only [check_duplicate]
    rw [find_skip_block (hex c2 p2)]
    have hrow : exact_row h c2 p2 ⟨h, name, doc_id, name, c, p⟩ = false := by
      have hne : ¬(c = c2 ∧ p = p2) := by
        intro hcp
        exact hdiff (by simp [hcp.1.symm, hcp.2.symm])
      simp only [exact_row]
      by_cases hc : c = c2
      · by_cases hp : p = p2
        · exact absurd ⟨hc, hp⟩ hne
        · simp [hp]
      · simp [hc]
    rw [find_skip_block hhash]
    simp [List.find?, hrow]

/-- Witness for C7: saving hash `h1` for document `d1` under
`(cA, /a)` into an empty ledger, then querying the same and a different
origin. -/
theorem check_duplicate_reference_lookup_w :
    check_duplicate (Except.ok ([] : List HashRow)) "h1" "cA" "/a" = (false, none, false) ∧
    (save_file_hash [] "h1" "f.txt" "d1" "cA" "/a").1 = true ∧
    check_duplicate (Except.ok (save_file_hash [] "h1" "f.txt" "d1" "cA" "/a").2) "h1" "cA" "/a"
      = (true, some "d1", true) ∧
    check_duplicate (Except.ok (save_file_hash [] "h1" "f.txt" "d1" "cA" "/a").2) "h1" "cB" "/b"
      = (true, some "d1", false) := by
  have hmain := check_duplicate_reference_lookup [] [] "x" "y" "z" "h1" "f.txt" "d1"
    "cA" "/a" "cB" "/b" (by simp) (by decide)
  exact ⟨hmain.2.2.2.1, hmain.2.2.2.2.1, hmain.2.2.2.2.2.1, hmain.2.2.2.2.2.2⟩

/-- C10: when the ledger database access raises during `check_duplicate`,
the call returns `(false, none, false)` instead of propagating — exactly
the result produced for a hash the ledger has never seen, so the caller
cannot tell a missing hash from an unavailable ledger. -/
theorem check_duplicate_db_error_swallowed (e : String) (rows : List HashRow)
    (h c p : String) (hfresh : ∀ r ∈ rows, r.file_hash ≠ h) :
    check_duplicate (Except.error e) h c p = (false, none, false) ∧
    check_duplicate (Except.error e) h c p = check_duplicate (Except.ok rows) h c p := by
  have hex : ∀ r ∈ rows, exact_row h c p r = false := by
    intro r hr
    simp only [exact_row, Bool.and_eq_false_iff]
    left; left
    simpa using hfresh r hr
  have hfind_ex : rows.find? (exact_row h c p) = none :=
    List.find?_eq_none.mpr (fun x hx => by simp [hex x hx])
  have hfind_h : rows.find? (fun r => r.file_hash == h) = none :=
    List.find?_eq_none.mpr (fun x hx => by simpa using hfresh x hx)
  exact ⟨rfl, by simp [check_duplicate, hfind_ex, hfind_h]⟩

/-- Witness for C10: a raising ledger and a ledger that holds only an
unrelated hash give the same answer for `h1`. -/
theorem check_duplicate_db_error_swallowed_w :
    check_duplicate (Except.error "db locked") "h1" "cA" "/a" = (false, none, false) ∧
    check_duplicate (Except.error "db locked") "h1" "cA" "/a"
      = check_duplicate (Except.ok [⟨"h2", "g.txt", "d2", "g.txt", "cX", "/x"⟩]) "h1" "cA" "/a" :=
  check_duplicate_db_error_swallowed "db locked"
    [⟨"h2", "g.txt", "d2", "g.txt", "cX", "/x"⟩] "h1" "cA" "/a" (by decide)

/-- C8, the code's behaviour at the failing input: after hash `h1` is saved
under client `clientA` and path `/a/a.txt`, saving the same hash under the
different origin `(clientB, /b/b.txt)` does not store a new ledger row —
the `INSERT` violates the `file_hash` PRIMARY KEY, the exception is caught
and the call returns `False`, leaving the ledger with the single original
row. -/
theorem save_file_hash_primary_key_rejects_new_origin :
    (save_file_hash [] "h1" "a.txt" "doc1" "clientA" "/a/a.txt").1 = true ∧
    (save_file_hash (save_file_hash [] "h1" "a.txt" "doc1" "clientA" "/a/a.txt").2
        "h1" "b.txt" "doc1" "clientB" "/b/b.txt").1 = false ∧
    (save_file_hash (save_file_hash [] "h1" "a.txt" "doc1" "clientA" "/a/a.txt").2
        "h1" "b.txt" "doc1" "clientB" "/b/b.txt").2
      = [⟨"h1", "a.txt", "doc1", "a.txt", "clientA", "/a/a.txt"⟩] := by
  exact ⟨by decide, by decide, by decide⟩

/-- Python `s.split(sep)` for a one-character separator: `""` splits to
`[""]`, and every separator occurrence opens a new piece. -/
def split_on_char (sep : Char) : List Char → List (List Char)
  | [] => [[]]
  | c :: cs =>
    if c = sep then [] :: split_on_char sep cs
    else
      match split_on_char sep cs with
      | [] => [[c]]
      | piece :: pieces => (c :: piece) :: pieces

/-- Python `int(s)` restricted to non-empty all-digit strings, the domain
on which it agrees with this simple fold (`int` additionally accepts signs
and surrounding whitespace, which no `HH:MM` schedule string uses). -/
def digits_to_nat? (l : List Char) : Option Nat :=
  if l ≠ [] ∧ l.all Char.isDigit then
    some (l.foldl (fun acc c => acc * 10 + (c.toNat - 48)) 0)
  else none

/-- The schedule parsing of `get_next_scheduled_run`
(`src/app/services/reconciliation.py`): `hour, minute = map(int,
schedule_time.split(":"))`, with the default `(3, 0)` when splitting or
conversion raises. -/
def parse_schedule_time (s : String) : Nat × Nat :=
  match (split_on_char ':' s.data).map digits_to_nat? with
  | [some hh, some mm] => (hh, mm)
  | _ => (3, 0)

/-- A wall-clock instant, as a day index and the microsecond of day;
`datetime` comparison on two instants of the same calendar day is the
comparison of their microseconds of day. -/
structure PyDateTime where
  day : Nat
  usec_of_day : Nat
  deriving DecidableEq

/-- Embedding of `get_next_scheduled_run`
(`src/app/services/reconciliation.py`, lines 12-37): parse the `HH:MM`
schedule (default `(3, 0)` on a parse failure), build today's instant at
that time with seconds and microseconds zeroed, and move to tomorrow when
`now >= scheduled`.  `now.replace(hour, minute)` raises `ValueError` for an
out-of-range hour or minute, which this function does not catch (`none`). -/
def get_next_scheduled_run (now : PyDateTime) (schedule_time : String) : Option PyDateTime :=
  let hm := parse_schedule_time schedule_time
  if hm.1 < 24 ∧ hm.2 < 60 then
    let sched_usec := (hm.1 * 60 + hm.2) * 60 * 1000000
    if sched_usec ≤ now.usec_of_day then
      some ⟨now.day + 1, sched_usec⟩
    else
      some ⟨now.day, sched_usec⟩
  else
    none

/-- C9: for a schedule string parsing to a valid `hh:mm`, the next
scheduled run is today at `hh:mm` when that instant is still strictly in
the future, otherwise tomorrow at `hh:mm`; the returned instant always
carries the scheduled time of day and lies strictly after `now`. -/
theorem get_next_scheduled_run_spec (now : PyDateTime) (s : String) (hh mm : Nat)
    (hp : parse_schedule_time s = (hh, mm)) (h24 : hh < 24) (h60 : mm < 60) :
    get_next_scheduled_run now s =
      some (if now.usec_of_day < (hh * 60 + mm) * 60 * 1000000
        then ⟨now.day, (hh * 60 + mm) * 60 * 1000000⟩
        else ⟨now.day + 1, (hh * 60 + mm) * 60 * 1000000⟩) ∧
    (∀ r, get_next_scheduled_run now s = some r →
      r.usec_of_day = (hh * 60 + mm) * 60 * 1000000 ∧
      (now.day < r.day ∨ (now.day = r.day ∧ now.usec_of_day < r.usec_of_day))) := by
  have hrun : get_next_scheduled_run now s =
      if (hh * 60 + mm) * 60 * 1000000 ≤ now.usec_of_day then
        some ⟨now.day + 1, (hh * 60 + mm) * 60 * 1000000⟩
      else
        some ⟨now.day, (hh * 60 + mm) * 60 * 1000000⟩ := by
    unfold get_next_scheduled_run
    rw [hp]
    exact if_pos ⟨h24, h60⟩
  by_cases hle : (hh * 60 + mm) * 60 * 1000000 ≤ now.usec_of_day
  · rw [hrun, if_pos hle]
    refine ⟨by rw [if_neg (by omega)], ?_⟩
    intro r hr
    have hr2 : r = ⟨now.day + 1, (hh * 60 + mm) * 60 * 1000000⟩ := by
      injection hr with hr1
      exact hr1.symm
    subst hr2
    exact ⟨rfl, Or.inl (Nat.lt_succ_self now.day)⟩
  · rw [hrun, if_neg hle]
    refine ⟨by rw [if_pos (by omega)], ?_⟩
    intro r hr
    have hr2 : r = ⟨now.day, (hh * 60 + mm) * 60 * 1000000⟩ := by
      injection hr with hr1
      exact hr1.symm
    subst hr2
    exact ⟨rfl, Or.inr ⟨rfl, Nat.lt_of_not_le hle⟩⟩

/-- Witness for C9, the spec's two scenarios: at `02:00` (7,200,000,000
microseconds of day) schedule `"03:00"` fires today at `03:00`
(10,800,000,000); at `04:00` (14,400,000,000) it fires tomorrow at
`03:00`. -/
theorem get_next_scheduled_run_w :
    get_next_scheduled_run ⟨0, 7200000000⟩ "03:00" = some ⟨0, 10800000000⟩ ∧
    get_next_scheduled_run ⟨0, 14400000000⟩ "03:00" = some ⟨1, 10800000000⟩ := by
  have h1 := get_next_scheduled_run_spec ⟨0, 7200000000⟩ "03:00" 3 0
    (by decide) (by decide) (by decide)
  have h2 := get_next_scheduled_run_spec ⟨0, 14400000000⟩ "03:00" 3 0
    (by decide) (by decide) (by decide)
  constructor
  · rw [h1.1, if_pos (by norm_num)]
  · rw [h2.1, if_neg (by norm_num)]

/-- Per-file record built by `_scan_filesystem`
(`src/app/core/reconciliation.py`): the reconcile step only ever reads the
`hash` entry; `modified_time` and `size` are carried along unread. -/
structure FileInfo where
  modified_time : String := ""
  size : Nat := 0
  hash : String
  deriving DecidableEq

/-- The metadata entries of a vectorstore document that the reconcile step
reads: `metadata.get("source_path")` and `metadata.get("file_hash")`. -/
structure VsMeta where
  source_path : Option String := none
  file_hash : Option String := none
  deriving DecidableEq

/-- A document returned by `_get_all_vectorstore_documents`: its optional
id and optional metadata (`doc.get("metadata")` falsy is `none`). -/
structure VsDoc where
  id : Option String := none
  metadata : Option VsMeta := none
  deriving DecidableEq

/-- The job counters sent to `update_job` by `_reconcile_vectorstore`. -/
structure Counters where
  processed : Nat
  added : Nat
  updated : Nat
  removed : Nat
  errors : Nat
  deriving DecidableEq

/-- The counters of a freshly created job. -/
def Counters.zero : Counters := ⟨0, 0, 0, 0, 0⟩

/-- Pointwise order on counters: every counter of `a` is at most the
corresponding counter of `b`. -/
def counter_le (a b : Counters) : Prop :=
  a.processed ≤ b.processed ∧ a.added ≤ b.added ∧ a.updated ≤ b.updated ∧
    a.removed ≤ b.removed ∧ a.errors ≤ b.errors

instance (a b : Counters) : Decidable (counter_le a b) := by
  unfold counter_le
  infer_instance

theorem counter_le_trans {a b c : Counters} (h1 : counter_le a b) (h2 : counter_le b c) :
    counter_le a c := by
  unfold counter_le at h1 h2 ⊢
  exact ⟨le_trans h1.1 h2.1, le_trans h1.2.1 h2.2.1, le_trans h1.2.2.1 h2.2.2.1,
    le_trans h1.2.2.2.1 h2.2.2.2.1, le_trans h1.2.2.2.2 h2.2.2.2.2⟩

/-- Python's `range(0, len(l), bs)` slicing `l[i:i+bs]`, written with a
fuel argument (`l.length` at the call site) so that the recursion is
structural; for `bs ≥ 1` the batches exactly partition `l`. -/
def chunk_list : Nat → List String → Nat → List (List String)
  | 0, _, _ => []
  | _ + 1, [], _ => []
  | fuel + 1, l, bs => l.take bs :: chunk_list fuel (l.drop bs) bs

/-- Total number of items in a batch list. -/
def sum_lengths (chs : List (List String)) : Nat := (chs.map List.length).sum

/-- Per-file body of the to-add loop of `_reconcile_vectorstore`: the
source simulates a successful hand-off to ingestion (`added_count += 1`,
nothing in the body can raise). -/
def add_step (c : Counters) (_p : String) : Counters := { c with added := c.added + 1 }

/-- Per-file body of the to-check loop of `_reconcile_vectorstore`: look
the path up in `files_info` (a `KeyError` would be counted as an error;
unreachable since checked paths come from `files_info`), find the
vectorstore document with that `source_path`, and count an update when the
stored `file_hash` differs from the file's current hash. -/
def check_step (files_info : List (String × FileInfo)) (vs_docs : List VsDoc)
    (c : Counters) (p : String) : Counters :=
  match files_info.lookup p with
  | none => { c with errors := c.errors + 1 }
  | some info =>
    match vs_docs.find? (fun d => (d.metadata.bind VsMeta.source_path) == some p) with
    | some d =>
      if (d.metadata.bind VsMeta.file_hash) ≠ some info.hash then
        { c with updated := c.updated + 1 }
      else c
    | none => c

/-- Per-file body of the to-remove loop of `_reconcile_vectorstore`: find
the vectorstore document with that `source_path` and count a removal when
it carries a truthy id. -/
def remove_step (vs_docs : List VsDoc) (c : Counters) (p : String) : Counters :=
  match vs_docs.find? (fun d => (d.metadata.bind VsMeta.source_path) == some p) with
  | some d => if d.id.getD "" ≠ "" then { c with removed := c.removed + 1 } else c
  | none => c

/-- One partition loop of `_reconcile_vectorstore`: process each batch with
the per-file step, add the batch length to `processed`, and emit the
counter snapshot that the loop sends to `update_job` after the batch. -/
def run_batches (step : Counters → String → Counters) :
    List (List String) → Counters → Counters × List Counters
  | [], c => (c, [])
  | b :: rest, c =>
    let c1 := b.foldl step c
    let c2 := { c1 with processed := c1.processed + b.length }
    let r := run_batches step rest c2
    (r.1, c2 :: r.2)

/-- Embedding of `ReconciliationService._reconcile_vectorstore`
(`src/app/core/reconciliation.py`, lines 231-383): build the filesystem and
vectorstore path sets, partition into to-add, to-check and to-remove, and
run the three batch loops (the remove loop only when `delete_missing`).
`batch_size = 0` makes the very first `range(0, n, 0)` raise `ValueError`,
caught by the surrounding `except` which returns the counters so far with
one extra error and no batch update emitted.  Returns the final counters
and the list of counter snapshots sent to `update_job`, in order. -/
def reconcile_vectorstore (files_info : List (String × FileInfo)) (vs_docs : List VsDoc)
    (delete_missing : Bool) (batch_size : Nat) : Counters × List Counters :=
  let filesystem_paths := (files_info.map Prod.fst).dedup
  let vectorstore_paths :=
    ((vs_docs.filterMap (fun d => d.metadata.bind VsMeta.source_path)).filter
      (fun p => p != "")).dedup
  let paths_to_add := filesystem_paths.filter (fun p => !vectorstore_paths.contains p)
  let paths_to_check := filesystem_paths.filter (fun p => vectorstore_paths.contains p)
  let paths_to_remove := vectorstore_paths.filter (fun p => !filesystem_paths.contains p)
  if batch_size = 0 then
    (⟨0, 0, 0, 0, 1⟩, [])
  else
    let r1 := run_batches add_step
      (chunk_list paths_to_add.length paths_to_add batch_size) Counters.zero
    let r2 := run_batches (check_step files_info vs_docs)
      (chunk_list paths_to_check.length paths_to_check batch_size) r1.1
    let r3 := if delete_missing then
        run_batches (remove_step vs_docs)
          (chunk_list paths_to_remove.length paths_to_remove batch_size) r2.1
      else (r2.1, [])
    (r3.1, r1.2 ++ r2.2 ++ r3.2)

/-- Embedding of `ReconciliationService._get_all_vectorstore_documents`
(`src/app/core/reconciliation.py`, lines 385-399): the source returns the
empty list (the actual vectorstore fetch is an unimplemented TODO). -/
def get_all_vectorstore_documents : List VsDoc := []

/-- Embedding of the observable job updates of
`ReconciliationService._run_reconciliation`
(`src/app/core/reconciliation.py`, lines 54-135) after the filesystem scan:
`total_files` is recorded as `len(files_info)` (first component), then the
batch snapshots of `_reconcile_vectorstore` are sent, then the final
completed update that sets `processed_files = len(files_info)` and the
final counts (second component, in order). -/
def run_reconciliation (files_info : List (String × FileInfo)) (delete_missing : Bool)
    (batch_size : Nat) : Nat × List Counters :=
  let total_files := files_info.length
  let r := reconcile_vectorstore files_info get_all_vectorstore_documents
    delete_missing batch_size
  let final : Counters :=
    ⟨files_info.length, r.1.added, r.1.updated, r.1.removed, r.1.errors⟩
  (total_files, r.2 ++ [final])

theorem sum_lengths_nil : sum_lengths [] = 0 := rfl

theorem sum_lengths_cons (b : List String) (chs : List (List String)) :
    sum_lengths (b :: chs) = b.length + sum_lengths chs := by
  simp [sum_lengths]

/-- With a positive batch size and enough fuel, the batches of `chunk_list`
hold exactly the items of the list. -/
theorem chunk_list_sum (bs : Nat) (hbs : 1 ≤ bs) :
    ∀ (fuel : Nat) (l : List String), l.length ≤ fuel →
      sum_lengths (chunk_list fuel l bs) = l.length := by
  intro fuel
  induction fuel with
  | zero =>
    intro l hl
    have hnil : l = [] := List.eq_nil_of_length_eq_zero (Nat.le_zero.mp hl)
    subst hnil
    rfl
  | succ n ih =>
    intro l hl
    cases l with
    | nil => rfl
    | cons x xs =>
      have hdrop : ((x :: xs).drop bs).length ≤ n := by
        rw [List.length_drop]
        simp only [List.length_cons] at hl ⊢
        omega
      simp only [chunk_list, sum_lengths_cons, ih _ hdrop, List.length_take,
        List.length_drop, List.length_cons]
      omega

/-- Folding the to-add body over one batch only increments `added`, once
per file. -/
theorem foldl_add_step (b : List String) (c : Counters) :
    b.foldl add_step c = { c with added := c.added + b.length } := by
  induction b generalizing c with
  | nil => simp
  | cons x t ih =>
    rw [List.foldl_cons, ih]
    simp only [add_step, List.length_cons, Counters.mk.injEq, and_true, true_and]
    omega

/-- End-to-end description of the to-add loop: final counters, the chain of
snapshots starting from the initial counters, and every snapshot bounded by
the final counters. -/
theorem run_batches_add_spec (chs : List (List String)) (c : Counters) :
    (run_batches add_step chs c).1 =
      ⟨c.processed + sum_lengths chs, c.added + sum_lengths chs,
        c.updated, c.removed, c.errors⟩ ∧
    List.Chain' counter_le (c :: (run_batches add_step chs c).2) ∧
    (∀ u ∈ (run_batches add_step chs c).2, counter_le u (run_batches add_step chs c).1) := by
  induction chs generalizing c with
  | nil =>
    refine ⟨?_, ?_, ?_⟩
    · simp [run_batches, sum_lengths_nil]
    · simp [run_batches]
    · simp [run_batches]
  | cons b rest ih =>
    have hrb : run_batches add_step (b :: rest) c =
        ((run_batches add_step rest
            ⟨c.processed + b.length, c.added + b.length, c.updated, c.removed, c.errors⟩).1,
          (⟨c.processed + b.length, c.added + b.length, c.updated, c.removed,
            c.errors⟩ : Counters) ::
            (run_batches add_step rest
              ⟨c.processed + b.length, c.added + b.length, c.updated, c.removed,
                c.errors⟩).2) := by
      simp only [run_batches]
      rw [foldl_add_step]
    obtain ⟨ihr, ihchain, ihbound⟩ :=
      ih ⟨c.processed + b.length, c.added + b.length, c.updated, c.removed, c.errors⟩
    refine ⟨?_, ?_, ?_⟩
    · rw [hrb]
      rw [ihr]
      simp only [sum_lengths_cons, Counters.mk.injEq, and_true, true_and]
      omega
    · rw [hrb]
      refine List.chain'_cons.mpr ⟨?_, ihchain⟩
      exact ⟨Nat.le_add_right _ _, Nat.le_add_right _ _, le_refl _, le_refl _, le_refl _⟩
    · rw [hrb]
      intro u hu
      rcases List.mem_cons.mp hu with rfl | hmem
      · rw [ihr]
        exact ⟨Nat.le_add_right _ _, Nat.le_add_right _ _, le_refl _, le_refl _, le_refl _⟩
      · exact ihbound u hmem

/-- A monotone chain extends by one element that dominates every element of
the chain. -/
theorem chain_append_singleton (a : Counters) (l : List Counters) (b : Counters)
    (h : List.Chain' counter_le (a :: l))
    (hb : ∀ x ∈ a :: l, counter_le x b) :
    List.Chain' counter_le ((a :: l) ++ [b]) := by
  induction l generalizing a with
  | nil =>
    simp only [List.nil_append, List.cons_append]
    exact List.chain'_cons.mpr ⟨hb a (by simp), List.chain'_singleton b⟩
  | cons x t ih =>
    simp only [List.cons_append]
    refine List.chain'_cons.mpr ⟨(List.chain'_cons.mp h).1, ?_⟩
    have := ih x (List.chain'_cons.mp h).2 (fun y hy => hb y (List.mem_cons_of_mem a hy))
    simpa using this

theorem filter_not_contains_nil (l : List String) :
    l.filter (fun p => !(([] : List String).contains p)) = l :=
  List.filter_eq_self.mpr (fun _ _ => rfl)

theorem filter_contains_nil (l : List String) :
    l.filter (fun p => (([] : List String).contains p)) = [] := by
  simp

/-- With the source's empty vectorstore snapshot, a reconciliation run is
the to-add loop over the deduplicated filesystem paths followed by the
final completed update. -/
theorem run_reconciliation_eq (files_info : List (String × FileInfo)) (dm : Bool)
    (bs : Nat) (hbs : bs ≠ 0) :
    run_reconciliation files_info dm bs =
      (files_info.length,
        (run_batches add_step
          (chunk_list ((files_info.map Prod.fst).dedup).length
            ((files_info.map Prod.fst).dedup) bs) Counters.zero).2
          ++ [⟨files_info.length,
               (run_batches add_step
                 (chunk_list ((files_info.map Prod.fst).dedup).length
                   ((files_info.map Prod.fst).dedup) bs) Counters.zero).1.added,
               (run_batches add_step
                 (chunk_list ((files_info.map Prod.fst).dedup).length
                   ((files_info.map Prod.fst).dedup) bs) Counters.zero).1.updated,
               (run_batches add_step
                 (chunk_list ((files_info.map Prod.fst).dedup).length
                   ((files_info.map Prod.fst).dedup) bs) Counters.zero).1.removed,
               (run_batches add_step
                 (chunk_list ((files_info.map Prod.fst).dedup).length
                   ((files_info.map Prod.fst).dedup) bs) Counters.zero).1.errors⟩]) := by
  unfold run_reconciliation reconcile_vectorstore get_all_vectorstore_documents
  simp only [List.filterMap_nil, List.filter_nil, List.dedup_nil,
    filter_not_contains_nil, filter_contains_nil, if_neg hbs, List.length_nil,
    chunk_list, run_batches, ite_self, List.append_nil]

/-- C5: in every reconciliation run, every counter update sent after
`total_files` was recorded satisfies `processed_files ≤ total_files`, and
the sequence of counter updates, starting from the fresh job's zero
counters, is monotonically non-decreasing in every counter. -/
theorem run_reconciliation_counter_invariant (files_info : List (String × FileInfo))
    (dm : Bool) (bs : Nat) (u : Counters)
    (hu : u ∈ (run_reconciliation files_info dm bs).2) :
    u.processed ≤ (run_reconciliation files_info dm bs).1 ∧
    List.Chain' counter_le (Counters.zero :: (run_reconciliation files_info dm bs).2) := by
  by_cases hbs : bs = 0
  · subst hbs
    have heq : run_reconciliation files_info dm 0 =
        (files_info.length, [⟨files_info.length, 0, 0, 0, 1⟩]) := by
      unfold run_reconciliation reconcile_vectorstore get_all_vectorstore_documents
      simp
    rw [heq] at hu ⊢
    constructor
    · have hueq : u = ⟨files_info.length, 0, 0, 0, 1⟩ := by simpa using hu
      subst hueq
      exact le_refl _
    · refine List.chain'_cons.mpr ⟨?_, List.chain'_singleton _⟩
      exact ⟨Nat.zero_le _, Nat.zero_le _, Nat.zero_le _, Nat.zero_le _, Nat.zero_le _⟩
  · have hF : ((files_info.map Prod.fst).dedup).length ≤ files_info.length := by
      calc ((files_info.map Prod.fst).dedup).length
          ≤ (files_info.map Prod.fst).length :=
            List.Sublist.length_le (List.dedup_sublist _)
        _ = files_info.length := List.length_map _ _
    have hsum : sum_lengths (chunk_list ((files_info.map Prod.fst).dedup).length
        ((files_info.map Prod.fst).dedup) bs) = ((files_info.map Prod.fst).dedup).length :=
      chunk_list_sum bs (Nat.one_le_iff_ne_zero.mpr hbs) _ _ le_rfl
    obtain ⟨hr1, hchain, hbound⟩ := run_batches_add_spec
      (chunk_list ((files_info.map Prod.fst).dedup).length
        ((files_info.map Prod.fst).dedup) bs) Counters.zero
    have heq := run_reconciliation_eq files_info dm bs hbs
    rw [heq] at hu ⊢
    have hfinproc : (run_batches add_step
        (chunk_list ((files_info.map Prod.fst).dedup).length
          ((files_info.map Prod.fst).dedup) bs) Counters.zero).1.processed
        ≤ files_info.length := by
      rw [hr1]
      simpa [Counters.zero, hsum] using hF
    have hlefin : counter_le (run_batches add_step
        (chunk_list ((files_info.map Prod.fst).dedup).length
          ((files_info.map Prod.fst).dedup) bs) Counters.zero).1
        ⟨files_info.length,
          (run_batches add_step (chunk_list ((files_info.map Prod.fst).dedup).length
            ((files_info.map Prod.fst).dedup) bs) Counters.zero).1.added,
          (run_batches add_step (chunk_list ((files_info.map Prod.fst).dedup).length
            ((files_info.map Prod.fst).dedup) bs) Counters.zero).1.updated,
          (run_batches add_step (chunk_list ((files_info.map Prod.fst).dedup).length
            ((files_info.map Prod.fst).dedup) bs) Counters.zero).1.removed,
          (run_batches add_step (chunk_list ((files_info.map Prod.fst).dedup).length
            ((files_info.map Prod.fst).dedup) bs) Counters.zero).1.errors⟩ :=
      ⟨hfinproc, le_refl _, le_refl _, le_refl _, le_refl _⟩
    have hball : ∀ x ∈ Counters.zero :: (run_batches add_step
        (chunk_list ((files_info.map Prod.fst).dedup).length
          ((files_info.map Prod.fst).dedup) bs) Counters.zero).2,
        counter_le x
          ⟨files_info.length,
            (run_batches add_step (chunk_list ((files_info.map Prod.fst).dedup).length
              ((files_info.map Prod.fst).dedup) bs) Counters.zero).1.added,
            (run_batches add_step (chunk_list ((files_info.map Prod.fst).dedup).length
              ((files_info.map Prod.fst).dedup) bs) Counters.zero).1.updated,
            (run_batches add_step (chunk_list ((files_info.map Prod.fst).dedup).length
              ((files_info.map Prod.fst).dedup) bs) Counters.zero).1.removed,
            (run_batches add_step (chunk_list ((files_info.map Prod.fst).dedup).length
              ((files_info.map Prod.fst).dedup) bs) Counters.zero).1.errors⟩ := by
      intro x hx
      rcases List.mem_cons.mp hx with rfl | hmem
      · exact ⟨Nat.zero_le _, Nat.zero_le _, Nat.zero_le _, Nat.zero_le _, Nat.zero_le _⟩
      · exact counter_le_trans (hbound x hmem) hlefin
    constructor
    · rcases List.mem_append.mp hu with hmem | hlast
      · exact le_trans (hbound u hmem).1 hfinproc
      · cases List.mem_singleton.mp hlast
        exact le_refl _
    · exact chain_append_singleton Counters.zero
        (run_batches add_step (chunk_list ((files_info.map Prod.fst).dedup).length
          ((files_info.map Prod.fst).dedup) bs) Counters.zero).2
        ⟨files_info.length,
          (run_batches add_step (chunk_list ((files_info.map Prod.fst).dedup).length
            ((files_info.map Prod.fst).dedup) bs) Counters.zero).1.added,
          (run_batches add_step (chunk_list ((files_info.map Prod.fst).dedup).length
            ((files_info.map Prod.fst).dedup) bs) Counters.zero).1.updated,
          (run_batches add_step (chunk_list ((files_info.map Prod.fst).dedup).length
            ((files_info.map Prod.fst).dedup) bs) Counters.zero).1.removed,
          (run_batches add_step (chunk_list ((files_info.map Prod.fst).dedup).length
            ((files_info.map Prod.fst).dedup) bs) Counters.zero).1.errors⟩
        hchain hball

/-- Witness for C5, the spec's scenario: two files `a.pdf`, `b.pdf`, an
empty vectorstore, `delete_missing = false`, batch size 1; the first batch
update `(processed 1, added 1)` respects the bound and the whole update
sequence is monotone. -/
theorem run_reconciliation_counter_invariant_w :
    (⟨1, 1, 0, 0, 0⟩ : Counters).processed ≤
      (run_reconciliation [("a.pdf", ⟨"", 0, "h1"⟩), ("b.pdf", ⟨"", 0, "h2"⟩)] false 1).1 ∧
    List.Chain' counter_le (Counters.zero ::
      (run_reconciliation [("a.pdf", ⟨"", 0, "h1"⟩), ("b.pdf", ⟨"", 0, "h2"⟩)] false 1).2) :=
  run_reconciliation_counter_invariant
    [("a.pdf", ⟨"", 0, "h1"⟩), ("b.pdf", ⟨"", 0, "h2"⟩)] false 1 ⟨1, 1, 0, 0, 0⟩ (by decide)

end VectorstoreService
